import Mathlib

/-!
Verification of the ignite-timer cycle store and countdown engine
(`src/unnamed/part_000`, the `Home` component).

Timestamps are modelled as integers at whole-second granularity: a single
clock value `now : Int` plays the role of each `new Date()` taken during one
event, and `differenceInSeconds a b` is `a - b`.  The cycle id
`String(new Date().getTime())` is modelled as the creation instant itself.
-/

namespace IgniteTimer

/-- The `Cycle` interface (source lines 74-81). -/
structure Cycle where
  id : Int
  task : String
  minutesAmount : Int
  startDate : Int
  interruptedDate : Option Int := none
  finishedDate : Option Int := none
deriving DecidableEq, Repr

/-- Type `NewCycleFormData` (source line 72): the validated form payload. -/
structure NewCycleFormData where
  task : String
  minutesAmount : Int
deriving DecidableEq, Repr

/-- Schema `newCycleFormValidationSchema` (source lines 53-59): `task` has length at
least 1 and `5 <= minutesAmount <= 60`. -/
def newCycleFormValidates (d : NewCycleFormData) : Bool :=
  1 ≤ d.task.length && 5 ≤ d.minutesAmount && d.minutesAmount ≤ 60

/-- The three `useState` hooks of `Home` (source lines 89-94): the cycle list,
the active-cycle id (or `null`), and the elapsed-seconds counter. -/
structure HomeState where
  cycles : List Cycle
  activeCycleId : Option Int
  amountSecondsPassed : Int
deriving DecidableEq, Repr

/-- The initial render: empty list, `null` active id, counter `0`. -/
def initialState : HomeState :=
  { cycles := [], activeCycleId := none, amountSecondsPassed := 0 }

/-- Lookup `activeCycle` (source line 106):
`cycles.find((cycle) => cycle.id === activeCycleId)`; a `null` id matches no
cycle. -/
def activeCycle (s : HomeState) : Option Cycle :=
  match s.activeCycleId with
  | none => none
  | some aid => s.cycles.find? (fun cycle => cycle.id == aid)

/-- Derived `totalSeconds` (source line 108): `activeCycle ? minutesAmount * 60 : 0`. -/
def totalSeconds (s : HomeState) : Int :=
  match activeCycle s with
  | some c => c.minutesAmount * 60
  | none => 0

/-- Handler `handleCreateNewCycle` (source lines 146-162): builds a cycle whose id and
`startDate` are the current instant, appends it, activates it, and resets the
counter to 0.  (`reset()` only clears the form fields, which are outside the
modelled state.) -/
def handleCreateNewCycle (data : NewCycleFormData) (now : Int) (s : HomeState) :
    HomeState :=
  let id := now
  let newCycle : Cycle :=
    { id := id
      task := data.task
      minutesAmount := data.minutesAmount
      startDate := now }
  { cycles := s.cycles ++ [newCycle]
    activeCycleId := some id
    amountSecondsPassed := 0 }

/-- Handler `handleInterruptCycle` (source lines 165-177): stamps `interruptedDate` on
the cycle whose id equals `activeCycleId` (leaving every other cycle alone) and
sets the active id to `null`. -/
def handleInterruptCycle (now : Int) (s : HomeState) : HomeState :=
  { cycles :=
      s.cycles.map (fun cycle =>
        if some cycle.id == s.activeCycleId then
          { cycle with interruptedDate := some now }
        else
          cycle)
    activeCycleId := none
    amountSecondsPassed := s.amountSecondsPassed }

/-- The `setInterval` callback of the countdown `useEffect` (source lines
111-144).  It only runs while `activeCycle` is truthy.  It recomputes
`secondsDifference = differenceInSeconds(now, activeCycle.startDate)`; when
that reaches `totalSeconds` it stamps `finishedDate` on the cycle whose id
equals `activeCycleId`, pins the counter to `totalSeconds` and clears the
interval — note that it does NOT touch `activeCycleId`; otherwise it just
stores `secondsDifference` in the counter. -/
def countdownTick (now : Int) (s : HomeState) : HomeState :=
  match activeCycle s with
  | none => s
  | some c =>
    let secondsDifference := now - c.startDate
    let total := c.minutesAmount * 60
    if total ≤ secondsDifference then
      { cycles :=
          s.cycles.map (fun cycle =>
            if some cycle.id == s.activeCycleId then
              { cycle with finishedDate := some now }
            else
              cycle)
        activeCycleId := s.activeCycleId
        amountSecondsPassed := total }
    else
      { s with amountSecondsPassed := secondsDifference }

/-- Derived `currentSeconds` (source line 179): remaining seconds while a cycle is
active, else 0. -/
def currentSeconds (s : HomeState) : Int :=
  if (activeCycle s).isSome then totalSeconds s - s.amountSecondsPassed else 0

/-- Padding `String(n).padStart(2, '0')` (source lines 184-185). -/
def padStart2 (str : String) : String :=
  if str.length < 2 then
    String.mk (List.replicate (2 - str.length) '0') ++ str
  else
    str

/-- Derived `minutesAmount = Math.floor(currentSeconds / 60)` (source line 181);
`Math.floor` of a real quotient is flooring integer division. -/
def minutesAmountDisplay (s : HomeState) : Int :=
  (currentSeconds s).fdiv 60

/-- Derived `secondsAmount = currentSeconds % 60` (source line 182); the JavaScript
`%` operator is the truncating remainder. -/
def secondsAmountDisplay (s : HomeState) : Int :=
  Int.tmod (currentSeconds s) 60

/-- Rendered `minutes` (source line 184). -/
def minutes (s : HomeState) : String :=
  padStart2 (toString (minutesAmountDisplay s))

/-- Rendered `seconds` (source line 185). -/
def seconds (s : HomeState) : String :=
  padStart2 (toString (secondsAmountDisplay s))

/-- The rendered countdown, `MM:SS` (source lines 189 and 232-236). -/
def countdownDisplay (s : HomeState) : String :=
  minutes s ++ ":" ++ seconds s

/-- The three externally triggerable events, each carrying the clock value
read during its handler. -/
inductive Event where
  | create (data : NewCycleFormData) (now : Int)
  | interrupt (now : Int)
  | tick (now : Int)
deriving DecidableEq, Repr

/-- The clock value an event carries. -/
def Event.time : Event → Int
  | .create _ now => now
  | .interrupt now => now
  | .tick now => now

/-- One UI-visible transition.  Creation is reachable only through the form's
submit button, which is rendered only while `activeCycle` is falsy (source
lines 239-249, and the inputs are `disabled={!!activeCycle}`), and
`handleSubmit(handleCreateNewCycle)` invokes the handler only on data passing
`newCycleFormValidationSchema` (source lines 97-103, 198).  The interrupt
button is rendered only while `activeCycle` is truthy (source lines 239-243).
The interval callback fires only while a cycle is active, which
`countdownTick` already checks itself. -/
def step (s : HomeState) (e : Event) : HomeState :=
  match e with
  | .create data now =>
    if newCycleFormValidates data && (activeCycle s).isNone then
      handleCreateNewCycle data now s
    else
      s
  | .interrupt now =>
    if (activeCycle s).isSome then handleInterruptCycle now s else s
  | .tick now => countdownTick now s

/-- Run a list of events from the initial render. -/
def run (es : List Event) : HomeState :=
  es.foldl step initialState

/-- A trace whose clock readings strictly increase, as successive
`new Date()` calls across distinct real instants do. -/
def OrderedTrace (es : List Event) : Prop :=
  es.Pairwise (fun a b => a.time < b.time)

instance : DecidablePred OrderedTrace := fun es =>
  List.instDecidablePairwise es

/-- A cycle returned by `activeCycle` is stored in the sequence. -/
theorem activeCycle_mem {s : HomeState} {c : Cycle} (h : activeCycle s = some c) :
    c ∈ s.cycles := by
  unfold activeCycle at h
  cases haid : s.activeCycleId with
  | none => rw [haid] at h; cases h
  | some aid => rw [haid] at h; exact List.mem_of_find?_eq_some h

/-- A cycle returned by `activeCycle` carries the active id. -/
theorem activeCycle_id {s : HomeState} {c : Cycle} (h : activeCycle s = some c) :
    s.activeCycleId = some c.id := by
  unfold activeCycle at h
  cases haid : s.activeCycleId with
  | none => rw [haid] at h; cases h
  | some aid =>
    rw [haid] at h
    have hpc := List.find?_some h
    simp only [beq_iff_eq] at hpc
    rw [hpc]

/-- Lookup by id commutes with mapping an id-preserving function. -/
theorem find?_id_map (l : List Cycle) (aid : Int) (f : Cycle → Cycle)
    (hf : ∀ c, (f c).id = c.id) :
    (l.map f).find? (fun c => c.id == aid) =
      ((l.find? (fun c => c.id == aid)).map f) := by
  rw [List.find?_map]
  have hp : ((fun c : Cycle => c.id == aid) ∘ f) = fun c : Cycle => c.id == aid := by
    funext c
    simp [Function.comp, hf]
  rw [hp]

/-- Lookup of the active cycle commutes with mapping an id-preserving function over the
sequence (the counter plays no role in the lookup). -/
theorem activeCycle_map (cycles : List Cycle) (aid : Option Int) (n n' : Int)
    (f : Cycle → Cycle) (hf : ∀ c, (f c).id = c.id) :
    activeCycle ⟨cycles.map f, aid, n'⟩ = (activeCycle ⟨cycles, aid, n⟩).map f := by
  unfold activeCycle
  cases aid with
  | none => rfl
  | some a => exact find?_id_map cycles a f hf

/-- Reachability invariant, relative to a strict lower bound `t` on every
future clock reading: every stored start date lies strictly in the past,
every stored duration passed the form validation, and the elapsed counter is
nonnegative and clamped to the active cycle's total. -/
structure Inv (s : HomeState) (t : Int) : Prop where
  start_lt : ∀ c ∈ s.cycles, c.startDate < t
  minutes_ge : ∀ c ∈ s.cycles, 5 ≤ c.minutesAmount
  counter_nonneg : 0 ≤ s.amountSecondsPassed
  counter_le : ∀ c, activeCycle s = some c →
    s.amountSecondsPassed ≤ c.minutesAmount * 60

theorem Inv.mono {s : HomeState} {t t' : Int} (h : Inv s t) (htt : t ≤ t') :
    Inv s t' where
  start_lt := fun c hc => lt_of_lt_of_le (h.start_lt c hc) htt
  minutes_ge := h.minutes_ge
  counter_nonneg := h.counter_nonneg
  counter_le := h.counter_le

theorem inv_initial (t : Int) : Inv initialState t where
  start_lt := by intro c hc; cases hc
  minutes_ge := by intro c hc; cases hc
  counter_nonneg := le_refl 0
  counter_le := by intro c hc; cases hc

/-- The interrupt stamp map keeps a cycle's id. -/
theorem interruptStamp_id (aid : Option Int) (now : Int) (c : Cycle) :
    (if some c.id == aid then { c with interruptedDate := some now } else c).id
      = c.id := by
  split <;> rfl

/-- The finish stamp map keeps a cycle's id. -/
theorem finishStamp_id (aid : Option Int) (now : Int) (c : Cycle) :
    (if some c.id == aid then { c with finishedDate := some now } else c).id
      = c.id := by
  split <;> rfl

/-- Every step preserves the invariant, advancing the time bound past the
clock reading the step consumed. -/
theorem inv_step (s : HomeState) (e : Event) (t : Int) (hInv : Inv s t)
    (ht : t ≤ e.time) : Inv (step s e) (e.time + 1) := by
  cases e with
  | create data now =>
    simp only [Event.time] at ht ⊢
    simp only [step]
    by_cases hgate : (newCycleFormValidates data && (activeCycle s).isNone) = true
    · rw [if_pos hgate]
      have hval : 5 ≤ data.minutesAmount := by
        simp only [newCycleFormValidates, Bool.and_eq_true, decide_eq_true_eq]
          at hgate
        exact hgate.1.1.2
      constructor
      · intro c hc
        simp only [handleCreateNewCycle, List.mem_append, List.mem_singleton]
          at hc
        rcases hc with hmem | rfl
        · exact lt_of_lt_of_le (hInv.start_lt c hmem) (by omega)
        · show now < now + 1
          omega
      · intro c hc
        simp only [handleCreateNewCycle, List.mem_append, List.mem_singleton]
          at hc
        rcases hc with hmem | rfl
        · exact hInv.minutes_ge c hmem
        · exact hval
      · simp [handleCreateNewCycle]
      · intro c hc
        have hmem := activeCycle_mem hc
        simp only [handleCreateNewCycle, List.mem_append, List.mem_singleton]
          at hmem
        have h5 : 5 ≤ c.minutesAmount := by
          rcases hmem with hmem | rfl
          · exact hInv.minutes_ge c hmem
          · exact hval
        show (0 : Int) ≤ c.minutesAmount * 60
        omega
    · rw [if_neg hgate]
      exact hInv.mono (by omega)
  | interrupt now =>
    simp only [Event.time] at ht ⊢
    simp only [step]
    by_cases hact : (activeCycle s).isSome = true
    · rw [if_pos hact]
      constructor
      · intro c hc
        simp only [handleInterruptCycle] at hc
        rcases List.mem_map.mp hc with ⟨c0, hc0, rfl⟩
        have hpres :
            (if some c0.id == s.activeCycleId then
              { c0 with interruptedDate := some now } else c0).startDate
              = c0.startDate := by
          split <;> rfl
        rw [hpres]
        exact lt_of_lt_of_le (hInv.start_lt c0 hc0) (by omega)
      · intro c hc
        simp only [handleInterruptCycle] at hc
        rcases List.mem_map.mp hc with ⟨c0, hc0, rfl⟩
        have hpres :
            (if some c0.id == s.activeCycleId then
              { c0 with interruptedDate := some now } else c0).minutesAmount
              = c0.minutesAmount := by
          split <;> rfl
        rw [hpres]
        exact hInv.minutes_ge c0 hc0
      · exact hInv.counter_nonneg
      · intro c hc
        simp [activeCycle, handleInterruptCycle] at hc
    · rw [if_neg hact]
      exact hInv.mono (by omega)
  | tick now =>
    simp only [Event.time] at ht ⊢
    simp only [step]
    unfold countdownTick
    cases hac : activeCycle s with
    | none =>
      exact hInv.mono (by omega)
    | some c =>
      dsimp only
      have hcmem := activeCycle_mem hac
      have hstart := hInv.start_lt c hcmem
      have hmge := hInv.minutes_ge c hcmem
      by_cases hfin : c.minutesAmount * 60 ≤ now - c.startDate
      · rw [if_pos hfin]
        constructor
        · intro c' hc'
          rcases List.mem_map.mp hc' with ⟨c0, hc0, rfl⟩
          rw [show
              (if some c0.id == s.activeCycleId then
                { c0 with finishedDate := some now } else c0).startDate
                = c0.startDate from by split <;> rfl]
          exact lt_of_lt_of_le (hInv.start_lt c0 hc0) (by omega)
        · intro c' hc'
          rcases List.mem_map.mp hc' with ⟨c0, hc0, rfl⟩
          rw [show
              (if some c0.id == s.activeCycleId then
                { c0 with finishedDate := some now } else c0).minutesAmount
                = c0.minutesAmount from by split <;> rfl]
          exact hInv.minutes_ge c0 hc0
        · show (0 : Int) ≤ c.minutesAmount * 60
          omega
        · intro c' hc'
          have hmap := activeCycle_map s.cycles s.activeCycleId
            s.amountSecondsPassed (c.minutesAmount * 60)
            (fun cycle =>
              if some cycle.id == s.activeCycleId then
                { cycle with finishedDate := some now } else cycle)
            (fun cycle => finishStamp_id s.activeCycleId now cycle)
          rw [hmap, hac] at hc'
          simp only [Option.map_some'] at hc'
          injection hc' with hc2
          subst hc2
          show c.minutesAmount * 60 ≤ _
          rw [show
              (if some c.id == s.activeCycleId then
                { c with finishedDate := some now } else c).minutesAmount
                = c.minutesAmount from by split <;> rfl]
      · rw [if_neg hfin]
        constructor
        · intro c' hc'
          exact lt_of_lt_of_le (hInv.start_lt c' hc') (by omega)
        · intro c' hc'
          exact hInv.minutes_ge c' hc'
        · show (0 : Int) ≤ now - c.startDate
          omega
        · intro c' hc'
          have heq : activeCycle { s with amountSecondsPassed := now - c.startDate }
              = activeCycle s := rfl
          rw [heq, hac] at hc'
          cases hc'
          show now - c.startDate ≤ c.minutesAmount * 60
          omega

/-- The invariant holds along any suffix of an ordered trace. -/
theorem inv_foldl : ∀ (es : List Event) (s : HomeState) (t : Int), Inv s t →
    (∀ e ∈ es, t ≤ e.time) → OrderedTrace es →
    ∃ t', Inv (es.foldl step s) t'
  | [], _, t, h, _, _ => ⟨t, h⟩
  | e :: es, s, t, h, hall, hord => by
    rw [List.foldl_cons]
    have hord' := List.pairwise_cons.mp hord
    exact inv_foldl es (step s e) (e.time + 1)
      (inv_step s e t h (hall e (List.mem_cons_self e es)))
      (fun e' he' => by have := hord'.1 e' he'; omega)
      hord'.2

/-- The invariant holds in every state reached by an ordered trace. -/
theorem inv_run (es : List Event) (hord : OrderedTrace es) :
    ∃ t, Inv (run es) t := by
  cases es with
  | nil => exact ⟨0, inv_initial 0⟩
  | cons e es =>
    have hord' := List.pairwise_cons.mp hord
    refine inv_foldl (e :: es) initialState e.time (inv_initial _) ?_ hord
    intro e' he'
    rcases List.mem_cons.mp he' with rfl | hmem
    · exact le_refl _
    · exact le_of_lt (hord'.1 e' hmem)

/-- A non-empty string has length at least 1. -/
theorem one_le_length_of_ne_empty (str : String) (h : str ≠ "") :
    1 ≤ str.length := by
  cases str with
  | mk l =>
    cases l with
    | nil => simp at h
    | cons a l => simp [String.length]

/-- The validated 5-minute form payload used in concrete scenarios. -/
def sampleForm : NewCycleFormData := { task := "a", minutesAmount := 5 }

/-- The cycle `sampleForm` creates at instant 0. -/
def sampleCycle : Cycle :=
  { id := 0, task := "a", minutesAmount := 5, startDate := 0,
    interruptedDate := none, finishedDate := none }

/-- C1: the spec says the tick that sets `finishedDate` also clears the
Active Cycle Reference; the code's finish branch (source lines 121-133) never
touches `activeCycleId`.  Creating a 5-minute cycle at instant 0 and ticking
at instant 300 stamps `finishedDate = 300` yet leaves the active id at
`some 0` instead of `none`. -/
theorem c1_finish_leaves_active_reference_set :
    (run [.create sampleForm 0, .tick 300]).cycles =
        [{ sampleCycle with finishedDate := some 300 }] ∧
      (run [.create sampleForm 0, .tick 300]).activeCycleId = some 0 := by
  exact ⟨rfl, rfl⟩

/-- C2: while a cycle is active the submit button is not rendered (source
lines 239-249) and the inputs are disabled, so a creation attempt is
rejected: the state is returned unchanged — no second cycle is appended and
the Active Cycle Reference is not repointed. -/
theorem c2_create_rejected_while_active (s : HomeState) (c : Cycle)
    (d : NewCycleFormData) (now : Int) (h : activeCycle s = some c) :
    step s (.create d now) = s := by
  simp only [step]
  rw [if_neg]
  rw [Bool.and_eq_true, not_and]
  intro _
  rw [h]
  simp

/-- Witness for C2 at a concrete active state. -/
theorem c2_create_rejected_while_active_witness :
    activeCycle (run [.create sampleForm 0]) = some sampleCycle ∧
      step (run [.create sampleForm 0])
          (.create { task := "b", minutesAmount := 10 } 5) =
        run [.create sampleForm 0] :=
  ⟨rfl, c2_create_rejected_while_active (run [.create sampleForm 0])
    sampleCycle { task := "b", minutesAmount := 10 } 5 rfl⟩

/-- C3: the spec's single-active invariant says a set Active Cycle Reference
points at a cycle with neither terminal date; because the finish branch never
clears the reference, the ordered trace create-at-0 then tick-at-300 reaches
a state whose reference `some 0` points at a cycle with `finishedDate`
set. -/
theorem c3_active_reference_points_to_finished_cycle :
    OrderedTrace [.create sampleForm 0, .tick 300] ∧
      (run [.create sampleForm 0, .tick 300]).activeCycleId = some 0 ∧
      (run [.create sampleForm 0, .tick 300]).cycles.find?
          (fun c => c.id == 0) =
        some { sampleCycle with finishedDate := some 300 } := by
  exact ⟨by decide, rfl, rfl⟩

/-- C4: the spec says at most one terminal date is ever set and terminal
dates never change; because the finish branch leaves the reference set, the
interrupt button is still rendered after completion, and the ordered trace
create-at-0, tick-at-300, interrupt-at-301 produces a cycle carrying BOTH
`finishedDate = 300` and `interruptedDate = 301`. -/
theorem c4_interrupt_after_finish_sets_both_dates :
    OrderedTrace [.create sampleForm 0, .tick 300, .interrupt 301] ∧
      (run [.create sampleForm 0, .tick 300, .interrupt 301]).cycles =
        [{ sampleCycle with
            interruptedDate := some 301
            finishedDate := some 300 }] := by
  exact ⟨by decide, rfl⟩

/-- C5: the spec says ticking stops at completion and no further tick mutates
`finishedDate`; because the reference stays set, `activeCycle` stays truthy,
the countdown effect re-arms the interval, and the next tick overwrites
`finishedDate` from 300 to 301. -/
theorem c5_later_tick_overwrites_finishedDate :
    OrderedTrace [.create sampleForm 0, .tick 300, .tick 301] ∧
      (run [.create sampleForm 0, .tick 300]).cycles =
        [{ sampleCycle with finishedDate := some 300 }] ∧
      (run [.create sampleForm 0, .tick 300, .tick 301]).cycles =
        [{ sampleCycle with finishedDate := some 301 }] := by
  exact ⟨by decide, rfl, rfl⟩

/-- C6: submitting a valid form (non-empty task, minutes in `[5, 60]`) while
no cycle is active appends exactly one new cycle whose `startDate` is the
current instant with both terminal dates unset, points the Active Cycle
Reference at the new cycle's id, and resets the elapsed counter to 0. -/
theorem c6_create_appends_and_activates (s : HomeState) (d : NewCycleFormData)
    (now : Int) (htask : d.task ≠ "") (hmin : 5 ≤ d.minutesAmount)
    (hmax : d.minutesAmount ≤ 60) (hidle : activeCycle s = none) :
    step s (.create d now) =
      { cycles := s.cycles ++
          [{ id := now, task := d.task, minutesAmount := d.minutesAmount,
             startDate := now, interruptedDate := none, finishedDate := none }]
        activeCycleId := some now
        amountSecondsPassed := 0 } := by
  simp only [step]
  rw [if_pos]
  · rfl
  · rw [Bool.and_eq_true]
    constructor
    · simp only [newCycleFormValidates, Bool.and_eq_true, decide_eq_true_eq]
      exact ⟨⟨one_le_length_of_ne_empty d.task htask, hmin⟩, hmax⟩
    · rw [hidle]
      rfl

/-- Witness for C6 at the initial state. -/
theorem c6_create_appends_and_activates_witness :
    sampleForm.task ≠ "" ∧ 5 ≤ sampleForm.minutesAmount ∧
      sampleForm.minutesAmount ≤ 60 ∧ activeCycle initialState = none ∧
      step initialState (.create sampleForm 0) =
        { cycles := [sampleCycle]
          activeCycleId := some 0
          amountSecondsPassed := 0 } :=
  ⟨by decide, by decide, by decide, rfl,
    c6_create_appends_and_activates initialState sampleForm 0 (by decide)
      (by decide) (by decide) rfl⟩

/-- C7: the elapsed counter is reset to 0 by cycle creation; in every state
reached by an ordered trace it is nonnegative and clamped to the active
cycle's `minutesAmount * 60`; and a tick taken at an instant at least
`startDate` and at least as late as the instant the current counter value
reflects never decreases the counter. -/
theorem c7_counter_reset_clamped_monotone :
    (∀ (d : NewCycleFormData) (now : Int) (s : HomeState),
        (handleCreateNewCycle d now s).amountSecondsPassed = 0) ∧
      (∀ es : List Event, OrderedTrace es →
        0 ≤ (run es).amountSecondsPassed ∧
          ∀ c, activeCycle (run es) = some c →
            (run es).amountSecondsPassed ≤ c.minutesAmount * 60) ∧
      (∀ (s : HomeState) (c : Cycle) (now : Int),
        activeCycle s = some c →
        c.startDate ≤ now →
        s.amountSecondsPassed ≤ now - c.startDate →
        s.amountSecondsPassed ≤ c.minutesAmount * 60 →
        s.amountSecondsPassed ≤ (step s (.tick now)).amountSecondsPassed) := by
  refine ⟨fun d now s => rfl, ?_, ?_⟩
  · intro es hord
    obtain ⟨t, hInv⟩ := inv_run es hord
    exact ⟨hInv.counter_nonneg, hInv.counter_le⟩
  · intro s c now hac hstart hle hclamp
    simp only [step]
    unfold countdownTick
    rw [hac]
    dsimp only
    by_cases hfin : c.minutesAmount * 60 ≤ now - c.startDate
    · rw [if_pos hfin]
      exact hclamp
    · rw [if_neg hfin]
      exact hle

/-- Witness for C7 at concrete states: creation resets the counter, the
one-create trace is clamped, and ticking at instant 65 does not decrease the
counter of the fresh cycle. -/
theorem c7_counter_reset_clamped_monotone_witness :
    (handleCreateNewCycle sampleForm 0 initialState).amountSecondsPassed = 0 ∧
      (0 : Int) ≤ (run [.create sampleForm 0]).amountSecondsPassed ∧
      (run [.create sampleForm 0]).amountSecondsPassed ≤
        sampleCycle.minutesAmount * 60 ∧
      (run [.create sampleForm 0]).amountSecondsPassed ≤
        (step (run [.create sampleForm 0]) (.tick 65)).amountSecondsPassed :=
  ⟨c7_counter_reset_clamped_monotone.1 sampleForm 0 initialState,
    (c7_counter_reset_clamped_monotone.2.1 [.create sampleForm 0]
      (by decide)).1,
    (c7_counter_reset_clamped_monotone.2.1 [.create sampleForm 0]
      (by decide)).2 sampleCycle rfl,
    c7_counter_reset_clamped_monotone.2.2 (run [.create sampleForm 0])
      sampleCycle 65 rfl (by decide) (by decide) (by decide)⟩

/-- C8: the rendered value is derived as
`remaining = totalSeconds - elapsed`, `minutes = floor(remaining / 60)`,
`seconds = remaining % 60`, both zero-padded to two digits; with no active
cycle the display reads "00:00"; a fresh 5-minute cycle shows "05:00" and
after 65 elapsed seconds it shows "03:55". -/
theorem c8_display_derivation :
    (∀ s : HomeState, activeCycle s = none → countdownDisplay s = "00:00") ∧
      (∀ (s : HomeState) (c : Cycle), activeCycle s = some c →
        currentSeconds s = c.minutesAmount * 60 - s.amountSecondsPassed ∧
          minutesAmountDisplay s = (currentSeconds s).fdiv 60 ∧
          secondsAmountDisplay s = Int.tmod (currentSeconds s) 60 ∧
          countdownDisplay s =
            padStart2 (toString (minutesAmountDisplay s)) ++ ":" ++
              padStart2 (toString (secondsAmountDisplay s))) ∧
      countdownDisplay (run [.create sampleForm 0]) = "05:00" ∧
      countdownDisplay (run [.create sampleForm 0, .tick 65]) = "03:55" := by
  refine ⟨?_, ?_, rfl, rfl⟩
  · intro s h
    unfold countdownDisplay minutes seconds minutesAmountDisplay
      secondsAmountDisplay currentSeconds
    rw [h]
    rfl
  · intro s c h
    refine ⟨?_, rfl, rfl, rfl⟩
    unfold currentSeconds totalSeconds
    rw [h]
    rfl

/-- Witness for C8: the no-active branch at the initial state and the
derivation at the fresh 5-minute state. -/
theorem c8_display_derivation_witness :
    countdownDisplay initialState = "00:00" ∧
      currentSeconds (run [.create sampleForm 0]) =
        sampleCycle.minutesAmount * 60 -
          (run [.create sampleForm 0]).amountSecondsPassed :=
  ⟨c8_display_derivation.1 initialState rfl,
    (c8_display_derivation.2.1 (run [.create sampleForm 0]) sampleCycle
      rfl).1⟩

/-- C9: if an active cycle exists, `handleInterruptCycle` stamps
`interruptedDate = now` on it and sets the Active Cycle Reference to `null`;
if no active cycle exists it is a safe no-op that leaves every stored cycle
unchanged (and the reference `null`). -/
theorem c9_interrupt_effect_or_noop (s : HomeState) (now : Int) :
    (∀ c, activeCycle s = some c →
      (handleInterruptCycle now s).activeCycleId = none ∧
        (handleInterruptCycle now s).cycles.find? (fun x => x.id == c.id) =
          some { c with interruptedDate := some now }) ∧
      (activeCycle s = none →
        (handleInterruptCycle now s).cycles = s.cycles ∧
          (handleInterruptCycle now s).activeCycleId = none) := by
  constructor
  · intro c hc
    have haid := activeCycle_id hc
    refine ⟨rfl, ?_⟩
    show (s.cycles.map _).find? _ = _
    rw [find?_id_map s.cycles c.id _
      (fun c0 => interruptStamp_id s.activeCycleId now c0)]
    have hfind : s.cycles.find? (fun x => x.id == c.id) = some c := by
      have hc' := hc
      unfold activeCycle at hc'
      rw [haid] at hc'
      exact hc'
    rw [hfind]
    simp only [Option.map_some']
    rw [haid]
    simp
  · intro hnone
    refine ⟨?_, rfl⟩
    show s.cycles.map _ = s.cycles
    have hid : ∀ x ∈ s.cycles,
        (if some x.id == s.activeCycleId then
          { x with interruptedDate := some now } else x) = x := by
      intro x hx
      cases haid : s.activeCycleId with
      | none => rfl
      | some aid =>
        unfold activeCycle at hnone
        rw [haid] at hnone
        have hne := List.find?_eq_none.mp hnone x hx
        rw [if_neg]
        simp only [beq_iff_eq, Option.some.injEq]
        simpa using hne
    rw [List.map_congr_left hid, List.map_id']

/-- Witness for C9: interrupting the fresh cycle at instant 10, and the
no-op on the initial state. -/
theorem c9_interrupt_effect_or_noop_witness :
    (handleInterruptCycle 10 (run [.create sampleForm 0])).activeCycleId
        = none ∧
      (handleInterruptCycle 10 (run [.create sampleForm 0])).cycles.find?
          (fun x => x.id == sampleCycle.id) =
        some { sampleCycle with interruptedDate := some 10 } ∧
      (handleInterruptCycle 10 initialState).cycles = initialState.cycles :=
  ⟨((c9_interrupt_effect_or_noop (run [.create sampleForm 0]) 10).1
      sampleCycle rfl).1,
    ((c9_interrupt_effect_or_noop (run [.create sampleForm 0]) 10).1
      sampleCycle rfl).2,
    ((c9_interrupt_effect_or_noop initialState 10).2 rfl).1⟩

/-- C10: each operation preserves all non-targeted data.  Creation keeps
every pre-existing position unchanged; interrupt and the finish branch keep
the sequence length, leave every cycle whose id differs from the Active
Cycle Reference untouched, and rewrite the referenced cycle only in its
`interruptedDate` (respectively `finishedDate`), the record update keeping
id, task, minutesAmount, startDate and the other date. -/
theorem c10_frame_effects :
    (∀ (d : NewCycleFormData) (now : Int) (s : HomeState) (i : Nat)
        (c : Cycle), s.cycles[i]? = some c →
        (handleCreateNewCycle d now s).cycles[i]? = some c) ∧
      (∀ (now : Int) (s : HomeState),
        (handleInterruptCycle now s).cycles.length = s.cycles.length ∧
          ∀ (i : Nat) (c : Cycle), s.cycles[i]? = some c →
            (some c.id ≠ s.activeCycleId →
              (handleInterruptCycle now s).cycles[i]? = some c) ∧
              (some c.id = s.activeCycleId →
                (handleInterruptCycle now s).cycles[i]? =
                  some { c with interruptedDate := some now })) ∧
      (∀ (now : Int) (s : HomeState) (c : Cycle),
        activeCycle s = some c → c.minutesAmount * 60 ≤ now - c.startDate →
        (countdownTick now s).cycles.length = s.cycles.length ∧
          ∀ (i : Nat) (c0 : Cycle), s.cycles[i]? = some c0 →
            (some c0.id ≠ s.activeCycleId →
              (countdownTick now s).cycles[i]? = some c0) ∧
              (some c0.id = s.activeCycleId →
                (countdownTick now s).cycles[i]? =
                  some { c0 with finishedDate := some now })) := by
  refine ⟨?_, ?_, ?_⟩
  · intro d now s i c hc
    obtain ⟨hlt, _⟩ := List.getElem?_eq_some.mp hc
    show (s.cycles ++ _)[i]? = some c
    rw [List.getElem?_append_left hlt]
    exact hc
  · intro now s
    refine ⟨List.length_map _ _, ?_⟩
    intro i c hc
    constructor
    · intro hne
      show (s.cycles.map _)[i]? = some c
      rw [List.getElem?_map, hc]
      simp only [Option.map_some']
      rw [if_neg]
      simpa using hne
    · intro heq
      show (s.cycles.map _)[i]? = some _
      rw [List.getElem?_map, hc]
      simp only [Option.map_some']
      rw [if_pos]
      exact beq_iff_eq.mpr heq
  · intro now s c hac hfin
    unfold countdownTick
    rw [hac]
    dsimp only
    rw [if_pos hfin]
    refine ⟨List.length_map _ _, ?_⟩
    intro i c0 hc0
    constructor
    · intro hne
      show (s.cycles.map _)[i]? = some c0
      rw [List.getElem?_map, hc0]
      simp only [Option.map_some']
      rw [if_neg]
      simpa using hne
    · intro heq
      show (s.cycles.map _)[i]? = some _
      rw [List.getElem?_map, hc0]
      simp only [Option.map_some']
      rw [if_pos]
      exact beq_iff_eq.mpr heq

/-- Witness for C10: the three frame facts at the fresh one-cycle state. -/
theorem c10_frame_effects_witness :
    (handleCreateNewCycle { task := "b", minutesAmount := 10 } 400
        (run [.create sampleForm 0])).cycles[0]? = some sampleCycle ∧
      (handleInterruptCycle 10 (run [.create sampleForm 0])).cycles[0]? =
        some { sampleCycle with interruptedDate := some 10 } ∧
      (countdownTick 300 (run [.create sampleForm 0])).cycles[0]? =
        some { sampleCycle with finishedDate := some 300 } :=
  ⟨c10_frame_effects.1 { task := "b", minutesAmount := 10 } 400
      (run [.create sampleForm 0]) 0 sampleCycle rfl,
    ((c10_frame_effects.2.1 10 (run [.create sampleForm 0])).2 0 sampleCycle
      rfl).2 rfl,
    ((c10_frame_effects.2.2 300 (run [.create sampleForm 0]) sampleCycle rfl
      (by decide)).2 0 sampleCycle rfl).2 rfl⟩

end IgniteTimer
